import Mathlib

/-
Verification of the wavvy interview platform core against its specification.

The definitions below are shallow embeddings of the TypeScript source:
  - src/app/interview/[interview_id]/record/page.tsx  (flow controller, upload
    pipeline, retry worker, countdown, elapsed-time tracker)
  - src/lib/utils.ts                                   (Fisher-Yates shuffle)
  - src/lib/scoring.ts                                 (scoring pipeline)
  - the VideoRecorder component                        (recorder state machine)
Blobs are identified by natural numbers; upload outcomes, the random source and
the model call are abstracted as explicit oracles passed to the functions.
-/

namespace Wavvy

/-! ## Upload retry pipeline (record/page.tsx lines 16-20, 193-244) -/

/-- Upload task queued after a failed upload, from the FailedUpload interface of
record/page.tsx (lines 16-20): the recorded blob (a numeric id in this model),
the original question index, and the attempts counter. -/
structure FailedUpload where
  blob : Nat
  questionIndex : Nat
  attempts : Nat
deriving DecidableEq, Repr

/-- Backoff delay before a re-attempt, from record/page.tsx line 221:
Math.min(1000 * Math.pow(2, failed.attempts - 1), 5000). -/
def backoffDelay (attempts : Nat) : Nat :=
  min (1000 * 2 ^ (attempts - 1)) 5000

/-- Result of one pass of retryFailedUploads over a queue snapshot: the new
queue installed by setFailedUploads(stillFailed), the question indices for
which a failure log was posted to /api/log-upload-failure, and the upload
attempts performed, each recorded as (backoff delay waited, question index). -/
structure RetryPassResult where
  stillFailed : List FailedUpload
  logs : List Nat
  uploads : List (Nat × Nat)
deriving DecidableEq, Repr

/-- One pass of retryFailedUploads (record/page.tsx lines 193-244) over the
queue snapshot uploadsToRetry, with upload outcomes given by the oracle ok.
A task with attempts >= 3 is pushed onto stillFailed and its failure log is
emitted, with no upload attempt; otherwise the pass waits backoffDelay
attempts milliseconds, re-attempts the upload, and on failure pushes the task
back with attempts incremented. -/
def retryPass (ok : FailedUpload → Bool) : List FailedUpload → RetryPassResult
  | [] => ⟨[], [], []⟩
  | f :: rest =>
    if 3 ≤ f.attempts then
      let r := retryPass ok rest
      ⟨f :: r.stillFailed, f.questionIndex :: r.logs, r.uploads⟩
    else
      let r := retryPass ok rest
      if ok f then
        ⟨r.stillFailed, r.logs, (backoffDelay f.attempts, f.questionIndex) :: r.uploads⟩
      else
        ⟨{ f with attempts := f.attempts + 1 } :: r.stillFailed, r.logs,
          (backoffDelay f.attempts, f.questionIndex) :: r.uploads⟩

lemma retryPass_uploads (ok : FailedUpload → Bool) (q : List FailedUpload) :
    (retryPass ok q).uploads =
      (q.filter (fun f => f.attempts < 3)).map
        (fun f => (backoffDelay f.attempts, f.questionIndex)) := by
  induction q with
  | nil => rfl
  | cons f rest ih =>
    by_cases h3 : 3 ≤ f.attempts
    · have hf : ¬ f.attempts < 3 := by omega
      simp [retryPass, h3, hf, ih]
    · have hf : f.attempts < 3 := by omega
      by_cases hok : ok f <;> simp [retryPass, h3, hf, hok, ih]

lemma retryPass_logs (ok : FailedUpload → Bool) (q : List FailedUpload) :
    (retryPass ok q).logs =
      (q.filter (fun f => 3 ≤ f.attempts)).map (fun f => f.questionIndex) := by
  induction q with
  | nil => rfl
  | cons f rest ih =>
    by_cases h3 : 3 ≤ f.attempts
    · simp [retryPass, h3, ih]
    · by_cases hok : ok f <;> simp [retryPass, h3, hok, ih]

lemma retryPass_exhausted_kept (ok : FailedUpload → Bool) (q : List FailedUpload)
    (f : FailedUpload) (hmem : f ∈ q) (h3 : 3 ≤ f.attempts) :
    f ∈ (retryPass ok q).stillFailed := by
  induction q with
  | nil => cases hmem
  | cons g rest ih =>
    rcases List.mem_cons.1 hmem with hg | hrest
    · subst hg
      simp [retryPass, h3]
    · by_cases hg3 : 3 ≤ g.attempts
      · simp [retryPass, hg3, ih hrest]
      · by_cases hok : ok g <;> simp [retryPass, hg3, hok, ih hrest]

/-! ## Global time tracking (record/page.tsx lines 64-70, 341-345) -/

/-- One tick of the total elapsed time tracker (record/page.tsx lines 64-70):
setTotalElapsedTime(prev => prev + 1), fired every 1000 ms. -/
def elapsedTick (t : Nat) : Nat := t + 1

/-- Value of totalElapsedTime after n one-second ticks, starting from the
initial state useState(0). -/
def elapsedAfter : Nat → Nat
  | 0 => 0
  | n + 1 => elapsedTick (elapsedAfter n)

/-- padStart(2, '0') of a decimal number, record/page.tsx lines 343-344. -/
def padStart2 (n : Nat) : String :=
  if n < 10 then "0" ++ toString n else toString n

/-- formatTotalTime (record/page.tsx lines 341-345): mm:ss display of the
elapsed seconds. -/
def formatTotalTime (seconds : Nat) : String :=
  padStart2 (seconds / 60) ++ ":" ++ padStart2 (seconds % 60)

lemma elapsedAfter_eq (n : Nat) : elapsedAfter n = n := by
  induction n with
  | zero => rfl
  | succ k ih => simp [elapsedAfter, elapsedTick, ih]

/-! ## Interview flow controller (record/page.tsx lines 175-191, 246-339) -/

/-- Reasons a terminal navigation could carry, following the taxonomy of the
specification. The record page itself only ever navigates to the complete
page after the last question (record/page.tsx line 303). -/
inductive TerminalReason
  | completed
  | timeout
deriving DecidableEq, Repr

/-- Observable outcome of a full interview session: the uploadedCount counter,
the retry queue left behind, and the reason of the terminal navigation. -/
structure SessionResult where
  uploadedCount : Nat
  queue : List FailedUpload
  reason : TerminalReason
deriving DecidableEq, Repr

/-- Effect on the session state of the background upload for one non-final
question (record/page.tsx lines 306-338 together with uploadVideo lines
175-191): when the upload succeeds, uploadVideo increments uploadedCount at
line 185 and the .then callback at line 319 increments it a second time; when
it fails, the blob is enqueued for retry with attempts = 1 (lines 321-325). -/
def nonFinalUpload (ok : Bool) (questionIndex blob : Nat) (s : SessionResult) :
    SessionResult :=
  if ok then { s with uploadedCount := s.uploadedCount + 1 + 1 }
  else { s with queue := s.queue ++ [⟨blob, questionIndex, 1⟩] }

/-- Result of Promise.race between uploadVideo and the 5-second timeout promise
(record/page.tsx lines 260-269): the upload result counts only if the upload
settles strictly before the 5000 ms timeout fires; otherwise the timeout
resolves the race to false. -/
def raceUploadSuccess (resolveMs : Nat) (ok : Bool) : Bool :=
  if resolveMs < 5000 then ok else false

/-- Straggler polling loop of the last-question path (record/page.tsx lines
286-291): while the retry queue ref is non-empty and less than 10000 ms have
elapsed, sleep 2000 ms. The fuel argument bounds the recursion; 6 iterations
always suffice because the elapsed counter grows by 2000 each round. Returns
the total milliseconds waited. -/
def pollWaitGo (emptyAt : Nat → Bool) : Nat → Nat → Nat
  | 0, t => t
  | fuel + 1, t =>
    if emptyAt t = false ∧ t < 10000 then pollWaitGo emptyAt fuel (t + 2000) else t

/-- Total wait of the straggler polling loop, from its start. -/
def pollWait (emptyAt : Nat → Bool) : Nat := pollWaitGo emptyAt 6 0

lemma pollWaitGo_le (emptyAt : Nat → Bool) :
    ∀ fuel t, t % 2000 = 0 → t ≤ 10000 → pollWaitGo emptyAt fuel t ≤ 10000 := by
  intro fuel
  induction fuel with
  | zero => intro t _ ht; simpa [pollWaitGo] using ht
  | succ k ih =>
    intro t hmod ht
    by_cases hc : emptyAt t = false ∧ t < 10000
    · have h8 : t ≤ 8000 := by omega
      have : (t + 2000) % 2000 = 0 := by omega
      simpa [pollWaitGo, hc] using ih (t + 2000) this (by omega)
    · simpa [pollWaitGo, hc] using ht

lemma pollWait_le (emptyAt : Nat → Bool) : pollWait emptyAt ≤ 10000 :=
  pollWaitGo_le emptyAt 6 0 rfl (by omega)

/-- Observable outcome of the last-question path of handleAutoAdvance. -/
structure LastAdvanceResult where
  queue : List FailedUpload
  waitedMs : Nat
  reason : TerminalReason
deriving Repr

/-- Last-question path of handleAutoAdvance (record/page.tsx lines 254-303):
race the upload against the 5-second timeout; on a non-success enqueue the
blob for retry with attempts = 1; then either poll the retry queue for at most
10 seconds or pause a flat 2000 ms, and navigate to the complete page
regardless. The branch deciding between the polling loop and the flat pause
reads failedUploadsRef.current (line 283), which at that moment still holds
the queue from before this call's own setFailedUploads (the ref is synced to
the new state only by an effect on a later render), hence it is queueBefore
that is tested for emptiness; emptyAt reports whether the live queue ref is
empty t milliseconds into the polling loop. -/
def lastQuestionAdvance (queueBefore : List FailedUpload) (blob questionIndex : Nat)
    (resolveMs : Nat) (ok : Bool) (emptyAt : Nat → Bool) : LastAdvanceResult :=
  let success := raceUploadSuccess resolveMs ok
  let queueAfter :=
    if success then queueBefore else queueBefore ++ [⟨blob, questionIndex, 1⟩]
  let waited := if queueBefore = [] then 2000 else pollWait emptyAt
  ⟨queueAfter, waited, TerminalReason.completed⟩

/-- Whole-session run of the flow controller with every upload settling
immediately with the outcome given by the oracle ok (indexed by question):
the n - 1 non-final questions advance in the background via nonFinalUpload,
and the last question takes the last-question path, whose single successful
upload increments uploadedCount once (uploadVideo line 185). Retry passes are
modelled separately by retryPass and do not run here (the queue is left as
enqueued). -/
def runSession (n : Nat) (ok : Nat → Bool) : SessionResult :=
  let init : SessionResult := ⟨0, [], TerminalReason.completed⟩
  if n = 0 then init
  else
    let s := (List.range (n - 1)).foldl (fun s q => nonFinalUpload (ok q) q q s) init
    let lastQ := n - 1
    if ok lastQ then { s with uploadedCount := s.uploadedCount + 1 }
    else { s with queue := s.queue ++ [⟨lastQ, lastQ, 1⟩] }

lemma nonFinalUpload_reason (ok : Bool) (q b : Nat) (s : SessionResult) :
    (nonFinalUpload ok q b s).reason = s.reason := by
  by_cases h : ok <;> simp [nonFinalUpload, h]

lemma foldl_nonFinalUpload_reason (ok : Nat → Bool) (l : List Nat) (s : SessionResult) :
    ((l.foldl (fun s q => nonFinalUpload (ok q) q q s) s)).reason = s.reason := by
  induction l generalizing s with
  | nil => rfl
  | cons q rest ih => simp [List.foldl_cons, ih, nonFinalUpload_reason]

lemma runSession_reason (n : Nat) (ok : Nat → Bool) :
    (runSession n ok).reason = TerminalReason.completed := by
  by_cases hn : n = 0
  · simp [runSession, hn]
  · by_cases hok : ok (n - 1) <;>
      simp [runSession, hn, hok, foldl_nonFinalUpload_reason]

/-! ## Question order shuffling (src/lib/utils.ts) -/

/-- Destructuring swap from shuffleArray (utils.ts line 12):
[shuffled[i], shuffled[j]] = [shuffled[j], shuffled[i]]. Both right-hand
reads happen on the list before either write. -/
def swapIdx (l : List Nat) (i j : Nat) : List Nat :=
  (l.set i (l.getD j 0)).set j (l.getD i 0)

/-- Fisher-Yates loop of shuffleArray (utils.ts lines 10-13): for i from
length - 1 down to 1, swap positions i and r i, where r i models
Math.floor(Math.random() * (i + 1)) for that iteration and therefore
satisfies r i <= i. -/
def fisherYatesAux (r : Nat → Nat) : Nat → List Nat → List Nat
  | 0, l => l
  | i + 1, l => fisherYatesAux r i (swapIdx l (i + 1) (r (i + 1)))

/-- Run of shuffleArray (utils.ts lines 8-15): the input array next to the
shuffled copy. The source first copies the input ([...array]) and mutates only
the copy, so the original component is carried through unchanged. -/
structure ShuffleRun where
  original : List Nat
  shuffled : List Nat
deriving DecidableEq, Repr

/-- shuffleArray (utils.ts lines 8-15) on a list of naturals, with the random
draws supplied by r. -/
def shuffleArray (r : Nat → Nat) (l : List Nat) : ShuffleRun :=
  ⟨l, fisherYatesAux r (l.length - 1) l⟩

/-- generateQuestionOrder (utils.ts lines 27-30): shuffle the index list
[0, ..., questionCount - 1]. -/
def generateQuestionOrder (r : Nat → Nat) (questionCount : Nat) : List Nat :=
  (shuffleArray r (List.range questionCount)).shuffled

lemma length_swapIdx (l : List Nat) (i j : Nat) :
    (swapIdx l i j).length = l.length := by
  simp [swapIdx]

lemma cons_set_getD_perm :
    ∀ (t : List Nat) (m : Nat) (a : Nat), m < t.length →
      (t.getD m 0 :: t.set m a).Perm (a :: t) := by
  intro t
  induction t with
  | nil => intro m a hm; cases hm
  | cons b t2 ih =>
    intro m a hm
    match m with
    | 0 =>
      simpa using List.Perm.swap a b t2
    | k + 1 =>
      have hk : k < t2.length := by simpa using hm
      exact ((List.Perm.swap b (t2.getD k 0) (t2.set k a)).trans
        ((ih k a hk).cons b)).trans (List.Perm.swap a b t2)

lemma swapIdx_perm :
    ∀ (l : List Nat) (i j : Nat), i < l.length → j < l.length →
      (swapIdx l i j).Perm l := by
  intro l
  induction l with
  | nil => intro i j hi _; cases hi
  | cons a t ih =>
    intro i j hi hj
    match i, j with
    | 0, 0 =>
      simp [swapIdx]
    | 0, q + 1 =>
      have hq : q < t.length := by simpa using hj
      simpa [swapIdx] using cons_set_getD_perm t q a hq
    | p + 1, 0 =>
      have hp : p < t.length := by simpa using hi
      simpa [swapIdx] using cons_set_getD_perm t p a hp
    | p + 1, q + 1 =>
      have hp : p < t.length := by simpa using hi
      have hq : q < t.length := by simpa using hj
      simpa [swapIdx] using (ih p q hp hq).cons a

lemma fisherYatesAux_perm (r : Nat → Nat) (hr : ∀ i, r i ≤ i) :
    ∀ (k : Nat) (l : List Nat), k < l.length → (fisherYatesAux r k l).Perm l := by
  intro k
  induction k with
  | zero => intro l _; simp [fisherYatesAux]
  | succ m ih =>
    intro l hk
    have hri : r (m + 1) < l.length := lt_of_le_of_lt (hr (m + 1)) hk
    have hswap : (swapIdx l (m + 1) (r (m + 1))).Perm l := swapIdx_perm l _ _ hk hri
    have hlen : m < (swapIdx l (m + 1) (r (m + 1))).length := by
      rw [length_swapIdx]; omega
    exact (ih _ hlen).trans hswap

lemma shuffleArray_perm (r : Nat → Nat) (hr : ∀ i, r i ≤ i) (l : List Nat) :
    (shuffleArray r l).shuffled.Perm l := by
  match l with
  | [] => simp [shuffleArray, fisherYatesAux]
  | a :: t =>
    have h := fisherYatesAux_perm r hr t.length (a :: t) (by simp)
    simpa [shuffleArray] using h

lemma generateQuestionOrder_perm (r : Nat → Nat) (hr : ∀ i, r i ≤ i) (n : Nat) :
    (generateQuestionOrder r n).Perm (List.range n) :=
  shuffleArray_perm r hr (List.range n)

/-! ## Recorder (VideoRecorder component, src/unnamed/part_000 first variant) -/

/-- FINISH_BUTTON_DELAY from the VideoRecorder component (part_000 line 29). -/
def FINISH_BUTTON_DELAY : Nat := 10

/-- MIN_RECORDING_TIME from the VideoRecorder component (part_000 line 30). -/
def MIN_RECORDING_TIME : Nat := 5

/-- Recorder state of the VideoRecorder component: whether the media recorder
is running, elapsed recording seconds, the visible error message (empty string
for none), the accumulated data chunks, the finalized blob produced by the
onstop handler, and whether the 1-second elapsed-time interval is running. -/
structure RecorderState where
  isRecording : Bool
  recordingTime : Nat
  error : String
  chunks : List Nat
  resultBlob : Option (List Nat)
  timerRunning : Bool
deriving DecidableEq, Repr

/-- stopRecording (part_000 lines 141-157): while recording, a stop before
MIN_RECORDING_TIME seconds only sets an error message and returns, leaving the
media recorder and the elapsed timer running; at or after the minimum, the
media recorder is stopped (its onstop handler concatenates the chunks into the
result blob, part_000 lines 121-125), isRecording is cleared and the timer
interval is cleared. A stop while not recording is a no-op. -/
def stopRecording (s : RecorderState) : RecorderState :=
  if s.isRecording then
    if s.recordingTime < MIN_RECORDING_TIME then
      { s with error :=
          "Please record for at least " ++ toString MIN_RECORDING_TIME ++ " seconds." }
    else
      { s with isRecording := false, resultBlob := some s.chunks, timerRunning := false }
  else s

/-! ## Question countdown (record/page.tsx lines 72-111, 161-167) -/

/-- JavaScript String.prototype.split with a character predicate as separator,
on the character list of the string: each separator character ends the current
segment and empty segments are kept, so the empty string splits to one empty
segment and consecutive separators produce empty segments. split(' ') of the
source is splitOnPred of the single space character. -/
def splitOnPred (p : Char → Bool) : List Char → List (List Char)
  | [] => [[]]
  | c :: rest =>
    if p c then [] :: splitOnPred p rest
    else
      match splitOnPred p rest with
      | [] => [[c]]
      | w :: ws => (c :: w) :: ws

/-- Dynamic reading time (record/page.tsx lines 77-79): words is
currentQuestion.split(' ').length, and the countdown starts at
Math.ceil(words / 3) + 5, written here with Math.ceil(words / 3) translated
to (words + 2) / 3 in natural division. -/
def readingTime (question : List Char) : Nat :=
  let words := (splitOnPred (fun c => c = ' ') question).length
  (words + 2) / 3 + 5

/-- Countdown length on entering a question (record/page.tsx lines 75-83): the
dynamic reading time when interview and candidate data are loaded, and the 30
second fallback otherwise. -/
def initialCountdown (dataLoaded : Bool) (question : List Char) : Nat :=
  if dataLoaded then readingTime question else 30

/-- Modelled from the claim's words, for comparison with the source: the number
of whitespace-separated words of the question text, that is the number of
nonempty segments between whitespace characters. -/
def specWordCount (question : List Char) : Nat :=
  ((splitOnPred Char.isWhitespace question).filter (fun w => w ≠ [])).length

/-- Per-question countdown state of the record page. -/
structure CountdownState where
  countdownSeconds : Nat
  isCountingDown : Bool
  canRecord : Bool
deriving DecidableEq, Repr

/-- handleManualStart (record/page.tsx lines 161-167): clears the countdown
interval, ends the countdown, and enables recording. -/
def handleManualStart (s : CountdownState) : CountdownState :=
  { s with isCountingDown := false, canRecord := true }

lemma natDiv3_eq_ceil (w : Nat) :
    ((w + 2) / 3 : Nat) = (⌈(w : ℚ) / 3⌉).toNat := by
  set c := (w + 2) / 3 with hc
  have h1 : w ≤ 3 * c := by omega
  have h2 : 3 * c ≤ w + 2 := by omega
  have hq1 : (w : ℚ) ≤ 3 * (c : ℚ) := by exact_mod_cast h1
  have hq2 : 3 * (c : ℚ) ≤ (w : ℚ) + 2 := by exact_mod_cast h2
  have hceil : ⌈(w : ℚ) / 3⌉ = (c : ℤ) := by
    rw [Int.ceil_eq_iff]
    refine ⟨?_, ?_⟩
    · rw [lt_div_iff₀ (by norm_num : (0:ℚ) < 3)]
      push_cast
      linarith
    · rw [div_le_iff₀ (by norm_num : (0:ℚ) < 3)]
      push_cast
      linarith
  rw [hceil]
  simp

/-! ## Scoring pipeline (src/lib/scoring.ts) -/

/-- QuestionScore record from scoring.ts (lines 19-27), with the numeric score
as a rational. -/
structure QuestionScore where
  question : String
  transcript : String
  score : ℚ
  reasoning : String
  strengths : List String
  weaknesses : List String
  experienceGapNote : Option String
deriving DecidableEq, Repr

/-- parseFloat(x.toFixed(1)): round to one decimal place. -/
def toFixed1 (x : ℚ) : ℚ := ((round (x * 10) : ℤ) : ℚ) / 10

/-- Average of the per-question scores as computed in scoring.ts (lines
130-131 and 490-491): reduce the scores to a sum and divide by the length. -/
def averageOf (questionScores : List QuestionScore) : ℚ :=
  (questionScores.map (fun q => q.score)).sum / (questionScores.length : ℚ)

/-- Overall score computed by generateOverallFeedback (scoring.ts lines
130-132): parseFloat((1.0 + (averageScore * 4.25)).toFixed(1)). -/
def overallScoreFeedback (questionScores : List QuestionScore) : ℚ :=
  toFixed1 (1 + averageOf questionScores * (4.25 : ℚ))

/-- Overall score computed by createFallbackFeedback (scoring.ts lines
490-492): parseFloat((1.0 + (averageScore * 4.25)).toFixed(1)). -/
def overallScoreFallback (questionScores : List QuestionScore) : ℚ :=
  toFixed1 (1 + averageOf questionScores * (4.25 : ℚ))

/-- Parsed model evaluation as handed to normalizeScoreResult, with every
field optional as in the loosely-typed JSON object. -/
structure Evaluation where
  score : Option ℚ
  reasoning : Option String
  strengths : Option (List String)
  weaknesses : Option (List String)
  experienceGapNote : Option String

/-- Outcome of the model call inside scoreAnswer: a parsed evaluation object,
or a thrown error (network failure surviving retryAPICall, a non-ok response,
or a JSON parse failure) carrying its message. -/
inductive ModelOutcome
  | ok (evaluation : Evaluation)
  | err (message : String)

/-- normalizeScoreResult (scoring.ts lines 463-487): clamp the score into
[0, 2] via Math.max(0, Math.min(2, evaluation.score || 0)) — a missing or
falsy score reads as 0 — default the reasoning, keep at most three strengths
and weaknesses (defaulting to empty when not arrays), and carry the optional
experience gap note. -/
def normalizeScoreResult (question transcript : String) (e : Evaluation) :
    QuestionScore where
  question := question
  transcript := transcript
  score := max 0 (min 2 (e.score.getD 0))
  reasoning := e.reasoning.getD "No reasoning provided"
  strengths := (e.strengths.getD []).take 3
  weaknesses := (e.weaknesses.getD []).take 3
  experienceGapNote := e.experienceGapNote

/-- Character-list version of String.startsWith, used because the source's
transcript.startsWith check must be evaluable on concrete inputs. -/
def strStartsWith (s pre : String) : Bool :=
  pre.toList.isPrefixOf s.toList

/-- scoreAnswer (scoring.ts lines 67-122) with the model call abstracted as
an explicit outcome: a transcript beginning with the transcription-failure
marker short-circuits to a zero score before any model call; a thrown error
is caught and turned into the score-1 fallback record; otherwise the parsed
evaluation is normalized. The boolean records whether the model was called. -/
def scoreAnswer (question transcript : String) (model : ModelOutcome) :
    QuestionScore × Bool :=
  if strStartsWith transcript "[Transcription failed" then
    (⟨question, transcript, 0, "Unable to score - transcription failed", [],
      ["No audio transcript available"], none⟩, false)
  else
    match model with
    | ModelOutcome.ok e => (normalizeScoreResult question transcript e, true)
    | ModelOutcome.err m =>
      (⟨question, transcript, 1, "Scoring failed: " ++ m, [],
        ["Unable to evaluate due to technical error"], none⟩, true)

lemma clamp_mem_unit2 (x : ℚ) : 0 ≤ max 0 (min 2 x) ∧ max 0 (min 2 x) ≤ 2 :=
  ⟨le_max_left 0 _, max_le (by norm_num) (min_le_left 2 x)⟩

lemma round_mono_rat {x y : ℚ} (h : x ≤ y) : round x ≤ round y := by
  rw [round_eq, round_eq]
  exact Int.floor_le_floor (by linarith)

lemma toFixed1_bounds {x lo hi : ℚ} (hlo : lo ≤ x) (hhi : x ≤ hi) :
    ((round (lo * 10) : ℤ) : ℚ) / 10 ≤ toFixed1 x ∧
      toFixed1 x ≤ ((round (hi * 10) : ℤ) : ℚ) / 10 := by
  unfold toFixed1
  constructor
  · have h := round_mono_rat (mul_le_mul_of_nonneg_right hlo (by norm_num : (0:ℚ) ≤ 10))
    have : ((round (lo * 10) : ℤ) : ℚ) ≤ ((round (x * 10) : ℤ) : ℚ) := by exact_mod_cast h
    linarith
  · have h := round_mono_rat (mul_le_mul_of_nonneg_right hhi (by norm_num : (0:ℚ) ≤ 10))
    have : ((round (x * 10) : ℤ) : ℚ) ≤ ((round (hi * 10) : ℤ) : ℚ) := by exact_mod_cast h
    linarith

/-! ## Claim theorems -/

/-- C1, counterexample: the record page has no decrementing global deadline.
Its only interview-wide per-second counter is totalElapsedTime, which counts
up from 0, so after 1500 one-second ticks it holds 1500 (displayed by
formatTotalTime as 25:00) and not 0 as the claim requires. -/
theorem C1_global_deadline_counterexample :
    elapsedAfter 1500 = 1500 ∧
    formatTotalTime (elapsedAfter 1500) = "25:00" ∧
    elapsedAfter 1500 ≠ 0 := by
  have h := elapsedAfter_eq 1500
  refine ⟨h, ?_, ?_⟩
  · rw [h]; decide
  · rw [h]; decide

/-- C1, amended: the record page only tracks a count-up totalElapsedTime,
which equals the number of elapsed one-second ticks; no time budget is ever
exhausted and every terminal navigation of the flow controller is the
completed one — no GlobalTimeout transition exists. -/
theorem C1_elapsed_counts_up_never_timeout :
    (∀ n, elapsedAfter n = n) ∧
    (∀ n ok, (runSession n ok).reason = TerminalReason.completed) ∧
    (∀ qb b q r ok e,
      (lastQuestionAdvance qb b q r ok e).reason = TerminalReason.completed) :=
  ⟨elapsedAfter_eq, runSession_reason, fun _ _ _ _ _ _ => rfl⟩

/-- C2, counterexample: a task whose attempts counter has reached 3 is pushed
back onto stillFailed by retryFailedUploads, so it is NOT removed from the
active retry queue after its failure log is emitted; and a later pass over a
queue still containing it (here: after a new failed upload was appended)
emits its failure log a second time, so the log is not emitted exactly once. -/
theorem C2_exhausted_task_not_removed_counterexample :
    (retryPass (fun _ => false) [⟨7, 2, 3⟩]).stillFailed = [⟨7, 2, 3⟩] ∧
    (retryPass (fun _ => false) [⟨7, 2, 3⟩]).logs = [2] ∧
    (retryPass (fun _ => false) [⟨7, 2, 3⟩, ⟨8, 4, 1⟩]).logs = [2] ∧
    (retryPass (fun _ => false) [⟨7, 2, 3⟩]).stillFailed ≠ [] := by
  refine ⟨rfl, rfl, rfl, by decide⟩

/-- C2, amended: in every retry pass, exactly the tasks with attempts < 3 are
re-uploaded (so a task with attempts >= 3 is never uploaded again), exactly
the tasks with attempts >= 3 have their failure log emitted, and every
exhausted task is retained in the queue installed after the pass — it is not
removed, so its log is emitted once per pass that processes it rather than
exactly once overall. -/
theorem C2_exhausted_task_kept_logged_never_uploaded (ok : FailedUpload → Bool)
    (q : List FailedUpload) :
    (retryPass ok q).uploads =
      (q.filter (fun f => f.attempts < 3)).map
        (fun f => (backoffDelay f.attempts, f.questionIndex)) ∧
    (retryPass ok q).logs =
      (q.filter (fun f => 3 ≤ f.attempts)).map (fun f => f.questionIndex) ∧
    ∀ f ∈ q, 3 ≤ f.attempts → f ∈ (retryPass ok q).stillFailed :=
  ⟨retryPass_uploads ok q, retryPass_logs ok q,
    fun f hf h3 => retryPass_exhausted_kept ok q f hf h3⟩

/-- C2, witness: the amended theorem applied to a pass over one exhausted task
with every upload failing. -/
theorem C2_exhausted_task_witness :
    FailedUpload.mk 7 2 3 ∈
      (retryPass (fun _ => false) [FailedUpload.mk 7 2 3]).stillFailed ∧
    (retryPass (fun _ => false) [FailedUpload.mk 7 2 3]).uploads = [] :=
  ⟨(C2_exhausted_task_kept_logged_never_uploaded (fun _ => false)
      [FailedUpload.mk 7 2 3]).2.2 (FailedUpload.mk 7 2 3) (by decide) (by decide),
   by
    rw [(C2_exhausted_task_kept_logged_never_uploaded (fun _ => false)
      [FailedUpload.mk 7 2 3]).1]
    decide⟩

/-- C3: the claim's bound uploadedCount <= totalQuestions is the clear intent
(the page renders uploadedCount / totalQuestions as a progress percentage),
but the code double-counts: for a successful non-final background upload,
uploadVideo increments uploadedCount (record/page.tsx line 185) and its .then
callback increments it again (line 319). With totalQuestions = 2 and every
upload succeeding on the first attempt, uploadedCount ends at 3 > 2. -/
theorem C3_uploadedCount_exceeds_total :
    runSession 2 (fun _ => true) =
      { uploadedCount := 3, queue := [], reason := TerminalReason.completed } ∧
    2 < (runSession 2 (fun _ => true)).uploadedCount := by
  exact ⟨by decide, by decide⟩

/-- C4: on the last question the upload is raced against the 5-second timeout
(an upload still unsettled at 5000 ms loses the race); on a non-success the
blob is enqueued for retry with attempts = 1; the completion blocking wait is
at most 10000 ms; and the controller then performs the terminal complete
transition regardless of the state of the retry queue. -/
theorem C4_last_question_bounded_wait (queueBefore : List FailedUpload)
    (blob questionIndex resolveMs : Nat) (ok : Bool) (emptyAt : Nat → Bool) :
    (5000 ≤ resolveMs → raceUploadSuccess resolveMs ok = false) ∧
    (raceUploadSuccess resolveMs ok = false →
      FailedUpload.mk blob questionIndex 1 ∈
        (lastQuestionAdvance queueBefore blob questionIndex resolveMs ok emptyAt).queue) ∧
    (lastQuestionAdvance queueBefore blob questionIndex resolveMs ok emptyAt).waitedMs
      ≤ 10000 ∧
    (lastQuestionAdvance queueBefore blob questionIndex resolveMs ok emptyAt).reason =
      TerminalReason.completed := by
  refine ⟨?_, ?_, ?_, rfl⟩
  · intro h5
    simp [raceUploadSuccess, Nat.not_lt.2 h5]
  · intro hfail
    simp [lastQuestionAdvance, hfail]
  · by_cases hq : queueBefore = []
    · simp [lastQuestionAdvance, hq]
    · simpa [lastQuestionAdvance, hq] using pollWait_le emptyAt

/-- C4, witness: the bounded-wait theorem applied to a concrete last-question
advance whose upload is still pending at the 5-second mark. -/
theorem C4_last_question_witness :
    FailedUpload.mk 5 1 1 ∈
      (lastQuestionAdvance [] 5 1 6000 true (fun _ => false)).queue ∧
    (lastQuestionAdvance [] 5 1 6000 true (fun _ => false)).waitedMs ≤ 10000 :=
  ⟨(C4_last_question_bounded_wait [] 5 1 6000 true (fun _ => false)).2.1
      ((C4_last_question_bounded_wait [] 5 1 6000 true (fun _ => false)).1 (by decide)),
   (C4_last_question_bounded_wait [] 5 1 6000 true (fun _ => false)).2.2.1⟩

/-- C5: every task re-attempted by a retry pass (attempts < 3) first waits
exactly backoffDelay attempts milliseconds, and that delay equals
min(1000 * 2^(attempts - 1), 5000): 1000 ms for attempt 1, 2000 ms for
attempt 2, 4000 ms for attempt 3, and capped at 5000 ms from attempt 4 on. -/
theorem C5_backoff_delay_formula (ok : FailedUpload → Bool)
    (q : List FailedUpload) (f : FailedUpload) (hmem : f ∈ q)
    (hlt : f.attempts < 3) :
    (backoffDelay f.attempts, f.questionIndex) ∈ (retryPass ok q).uploads ∧
    backoffDelay f.attempts = min (1000 * 2 ^ (f.attempts - 1)) 5000 ∧
    backoffDelay 1 = 1000 ∧ backoffDelay 2 = 2000 ∧ backoffDelay 3 = 4000 ∧
    ∀ k, 4 ≤ k → backoffDelay k = 5000 := by
  refine ⟨?_, rfl, by decide, by decide, by decide, ?_⟩
  · rw [retryPass_uploads]
    exact List.mem_map.2 ⟨f, List.mem_filter.2 ⟨hmem, by simpa using hlt⟩, rfl⟩
  · intro k hk
    have h8 : 8 ≤ 2 ^ (k - 1) := by
      calc (8 : Nat) = 2 ^ 3 := by norm_num
        _ ≤ 2 ^ (k - 1) := Nat.pow_le_pow_right (by norm_num) (by omega)
    have : 5000 ≤ 1000 * 2 ^ (k - 1) := by
      calc (5000 : Nat) ≤ 1000 * 8 := by norm_num
        _ ≤ 1000 * 2 ^ (k - 1) := Nat.mul_le_mul_left 1000 h8
    simpa [backoffDelay] using Nat.min_eq_right this

/-- C5, witness: the backoff theorem applied to a queue holding one task on
its second attempt, plus the capped value at attempt 4. -/
theorem C5_backoff_delay_witness :
    (backoffDelay 2, 9) ∈ (retryPass (fun _ => true) [FailedUpload.mk 0 9 2]).uploads ∧
    backoffDelay 4 = 5000 :=
  ⟨(C5_backoff_delay_formula (fun _ => true) [FailedUpload.mk 0 9 2]
      (FailedUpload.mk 0 9 2) (by decide) (by decide)).1,
   (C5_backoff_delay_formula (fun _ => true) [FailedUpload.mk 0 9 2]
      (FailedUpload.mk 0 9 2) (by decide) (by decide)).2.2.2.2.2 4 (by decide)⟩

/-- C6: for every question count n and every random source r (each draw
Math.floor(Math.random() * (i + 1)) satisfies r i <= i), generateQuestionOrder
returns a list of length n in which every index below n occurs exactly once
and no other value occurs — a permutation of [0, n); and shuffleArray leaves
its input array unchanged (it mutates only the copy made by [...array]). -/
theorem C6_generateQuestionOrder_permutation (r : Nat → Nat)
    (hr : ∀ i, r i ≤ i) (n : Nat) :
    (generateQuestionOrder r n).length = n ∧
    (∀ k, k < n → (generateQuestionOrder r n).count k = 1) ∧
    (∀ k, n ≤ k → (generateQuestionOrder r n).count k = 0) ∧
    (∀ l, (shuffleArray r l).original = l) := by
  have hperm := generateQuestionOrder_perm r hr n
  refine ⟨by simpa using hperm.length_eq, ?_, ?_, fun l => rfl⟩
  · intro k hk
    rw [hperm.count_eq]
    exact List.count_eq_one_of_mem (List.nodup_range n) (List.mem_range.2 hk)
  · intro k hk
    rw [hperm.count_eq]
    exact List.count_eq_zero_of_not_mem (by simpa using Nat.not_lt.2 hk)

/-- C6, witness: the permutation theorem applied at n = 3 with the random
source that always draws the top index. -/
theorem C6_generateQuestionOrder_witness :
    (generateQuestionOrder (fun i => i) 3).length = 3 ∧
    (generateQuestionOrder (fun i => i) 3).count 2 = 1 :=
  ⟨(C6_generateQuestionOrder_permutation (fun i => i) (fun i => Nat.le_refl i) 3).1,
   (C6_generateQuestionOrder_permutation (fun i => i) (fun i => Nat.le_refl i) 3).2.1
      2 (by decide)⟩

/-- C7: while recording, stopRecording before MIN_RECORDING_TIME = 5 elapsed
seconds reports the minimum-duration error and changes nothing else — the
recorder stays recording, no blob is finalized, the elapsed timer keeps
running; a stop at or after 5 seconds stops the recorder, finalizes the
accumulated chunks into the result blob and clears the timer. -/
theorem C7_stopRecording_minimum_duration (s : RecorderState)
    (hrec : s.isRecording = true) :
    (s.recordingTime < MIN_RECORDING_TIME →
      (stopRecording s).isRecording = true ∧
      (stopRecording s).resultBlob = s.resultBlob ∧
      (stopRecording s).timerRunning = s.timerRunning ∧
      (stopRecording s).recordingTime = s.recordingTime ∧
      (stopRecording s).error =
        "Please record for at least " ++ toString MIN_RECORDING_TIME ++ " seconds.") ∧
    (MIN_RECORDING_TIME ≤ s.recordingTime →
      (stopRecording s).isRecording = false ∧
      (stopRecording s).resultBlob = some s.chunks ∧
      (stopRecording s).timerRunning = false) := by
  constructor
  · intro hlt
    simp [stopRecording, hrec, hlt]
  · intro hge
    simp [stopRecording, hrec, Nat.not_lt.2 hge]

/-- C7, witness: the minimum-duration theorem applied to a recorder stopped at
3 seconds (rejected) and at 7 seconds (accepted). -/
theorem C7_stopRecording_witness :
    (stopRecording ⟨true, 3, "", [1, 2], none, true⟩).isRecording = true ∧
    (stopRecording ⟨true, 7, "", [1, 2], none, true⟩).resultBlob = some [1, 2] :=
  ⟨((C7_stopRecording_minimum_duration ⟨true, 3, "", [1, 2], none, true⟩ rfl).1
      (by decide)).1,
   ((C7_stopRecording_minimum_duration ⟨true, 7, "", [1, 2], none, true⟩ rfl).2
      (by decide)).2.1⟩

/-- C8, counterexample: the question "a  b  c  d" (two spaces between words)
has 4 whitespace-separated words, so the claimed formula gives
ceil(4 / 3) + 5 = 7; but the code splits on single spaces and counts empty
segments, giving 7 segments and a countdown of ceil(7 / 3) + 5 = 8. -/
theorem C8_word_count_counterexample :
    initialCountdown true "a  b  c  d".toList = 8 ∧
    specWordCount "a  b  c  d".toList = 4 ∧
    (⌈(specWordCount "a  b  c  d".toList : ℚ) / 3⌉).toNat + 5 = 7 ∧
    initialCountdown true "a  b  c  d".toList ≠
      (⌈(specWordCount "a  b  c  d".toList : ℚ) / 3⌉).toNat + 5 := by
  have hw : specWordCount "a  b  c  d".toList = 4 := by decide
  have hceil : (⌈(specWordCount "a  b  c  d".toList : ℚ) / 3⌉).toNat + 5 = 7 := by
    rw [hw, ← natDiv3_eq_ceil 4]
  have hcode : initialCountdown true "a  b  c  d".toList = 8 := by decide
  exact ⟨hcode, hw, hceil, by rw [hcode, hceil]; decide⟩

/-- C8, amended: the countdown on entering a question starts at
ceil(segments / 3) + 5 seconds where segments is the length of the question
text split on single space characters with empty segments counted (not the
whitespace-separated word count); the fallback is 30 seconds when interview
or candidate data is not loaded; and the explicit skip action ends the
countdown and enables recording. -/
theorem C8_countdown_policy (question : List Char) (s : CountdownState) :
    initialCountdown true question =
      (⌈((splitOnPred (fun c => c = ' ') question).length : ℚ) / 3⌉).toNat + 5 ∧
    initialCountdown false question = 30 ∧
    (handleManualStart s).isCountingDown = false ∧
    (handleManualStart s).canRecord = true := by
  refine ⟨?_, rfl, rfl, rfl⟩
  have h := natDiv3_eq_ceil ((splitOnPred (fun c => c = ' ') question).length)
  simp [initialCountdown, readingTime, h]

/-- C9: the overall interview score is 1.0 + average(score) * 4.25 rounded to
one decimal place, computed identically by the normal feedback path
(generateOverallFeedback) and the fallback path (createFallbackFeedback); and
for a nonempty list of per-question scores each in [0, 2] the overall score
lies in [1, 9.5]. -/
theorem C9_overall_score_formula (qs : List QuestionScore) (hne : qs ≠ [])
    (hall : ∀ q ∈ qs, 0 ≤ q.score ∧ q.score ≤ 2) :
    overallScoreFeedback qs = overallScoreFallback qs ∧
    overallScoreFeedback qs =
      toFixed1 (1 + (qs.map (fun q => q.score)).sum / (qs.length : ℚ) * (4.25 : ℚ)) ∧
    1 ≤ overallScoreFeedback qs ∧ overallScoreFeedback qs ≤ 19 / 2 := by
  have hlen0 : qs.length ≠ 0 := by simpa [List.length_eq_zero] using hne
  have hlen : 0 < (qs.length : ℚ) := by exact_mod_cast Nat.pos_of_ne_zero hlen0
  have hsum0 : 0 ≤ (qs.map (fun q => q.score)).sum := by
    apply List.sum_nonneg
    intro x hx
    obtain ⟨q, hq, rfl⟩ := List.mem_map.1 hx
    exact (hall q hq).1
  have hsum2 : (qs.map (fun q => q.score)).sum ≤ 2 * (qs.length : ℚ) := by
    have h := List.sum_le_card_nsmul (qs.map (fun q => q.score)) 2 ?_
    · simpa [mul_comm, nsmul_eq_mul] using h
    · intro x hx
      obtain ⟨q, hq, rfl⟩ := List.mem_map.1 hx
      exact (hall q hq).2
  have havg0 : 0 ≤ averageOf qs := div_nonneg hsum0 hlen.le
  have havg2 : averageOf qs ≤ 2 := by
    rw [averageOf, div_le_iff₀ hlen]; linarith
  have hx1 : (1 : ℚ) ≤ 1 + averageOf qs * (4.25 : ℚ) := by nlinarith
  have hx2 : 1 + averageOf qs * (4.25 : ℚ) ≤ 19 / 2 := by nlinarith
  have hb := toFixed1_bounds hx1 hx2
  refine ⟨rfl, rfl, ?_, ?_⟩
  · have h1 : ((round ((1 : ℚ) * 10) : ℤ) : ℚ) / 10 = 1 := by norm_num [round_eq]
    calc (1 : ℚ) = ((round ((1 : ℚ) * 10) : ℤ) : ℚ) / 10 := h1.symm
      _ ≤ overallScoreFeedback qs := hb.1
  · have h2 : ((round ((19 / 2 : ℚ) * 10) : ℤ) : ℚ) / 10 = 19 / 2 := by
      norm_num [round_eq]
    calc overallScoreFeedback qs
        ≤ ((round ((19 / 2 : ℚ) * 10) : ℤ) : ℚ) / 10 := hb.2
      _ = 19 / 2 := h2

/-- C9, witness: the formula theorem applied to a single perfect answer, whose
overall score is 1 + 2 * 4.25 = 9.5. -/
theorem C9_overall_score_witness :
    overallScoreFeedback [⟨"q", "t", 2, "r", [], [], none⟩] =
      overallScoreFallback [⟨"q", "t", 2, "r", [], [], none⟩] ∧
    overallScoreFeedback [⟨"q", "t", 2, "r", [], [], none⟩] ≤ 19 / 2 :=
  ⟨(C9_overall_score_formula [⟨"q", "t", 2, "r", [], [], none⟩]
      (by decide) (by decide)).1,
   (C9_overall_score_formula [⟨"q", "t", 2, "r", [], [], none⟩]
      (by decide) (by decide)).2.2.2⟩

/-- C10: scoreAnswer is total and its score always lies in [0, 2]; a
transcript beginning with the transcription-failure marker scores 0 without
any model call; a thrown error is caught and scores 1 with a reasoning that
starts with the scoring-failed marker; and a successful model response is
normalized (clamped) by normalizeScoreResult. -/
theorem C10_scoreAnswer_total_clamped (question transcript : String)
    (model : ModelOutcome) :
    (0 ≤ (scoreAnswer question transcript model).1.score ∧
      (scoreAnswer question transcript model).1.score ≤ 2) ∧
    (strStartsWith transcript "[Transcription failed" = true →
      (scoreAnswer question transcript model).1.score = 0 ∧
      (scoreAnswer question transcript model).2 = false) ∧
    (∀ m, model = ModelOutcome.err m →
      strStartsWith transcript "[Transcription failed" = false →
      (scoreAnswer question transcript model).1.score = 1 ∧
      strStartsWith (scoreAnswer question transcript model).1.reasoning
        "Scoring failed" = true) ∧
    (∀ e, model = ModelOutcome.ok e →
      strStartsWith transcript "[Transcription failed" = false →
      (scoreAnswer question transcript model).1 =
        normalizeScoreResult question transcript e) := by
  refine ⟨?_, ?_, ?_, ?_⟩
  · by_cases hpre : strStartsWith transcript "[Transcription failed" = true
    · constructor <;> simp [scoreAnswer, hpre]
    · cases model with
      | ok e =>
        have h := clamp_mem_unit2 (e.score.getD 0)
        have hs : (scoreAnswer question transcript (ModelOutcome.ok e)).1.score =
            max 0 (min 2 (e.score.getD 0)) := by
          simp [scoreAnswer, hpre, normalizeScoreResult]
        rw [hs]
        exact h
      | err m => constructor <;> simp [scoreAnswer, hpre]
  · intro hpre
    constructor <;> simp [scoreAnswer, hpre]
  · intro m hm hpre
    subst hm
    refine ⟨by simp [scoreAnswer, hpre], ?_⟩
    have hpref : "Scoring failed".toList <+: "Scoring failed: ".toList := by decide
    have hfull : "Scoring failed".toList <+: ("Scoring failed: " ++ m).toList := by
      have : ("Scoring failed: " ++ m).toList =
          "Scoring failed: ".toList ++ m.toList := by
        simp [String.toList]
      rw [this]
      exact hpref.trans (List.prefix_append _ _)
    have hgoal : (scoreAnswer question transcript (ModelOutcome.err m)).1.reasoning =
        "Scoring failed: " ++ m := by
      simp [scoreAnswer, hpre]
    rw [hgoal]
    unfold strStartsWith
    exact List.isPrefixOf_iff_prefix.2 hfull
  · intro e he hpre
    subst he
    simp [scoreAnswer, hpre]

/-- C10, witness: the totality theorem applied to a failed transcription (score
0, no model call) and to a model error on a normal transcript (score 1). -/
theorem C10_scoreAnswer_witness :
    (scoreAnswer "Q" "[Transcription failed]" (ModelOutcome.err "boom")).1.score = 0 ∧
    (scoreAnswer "Q" "[Transcription failed]" (ModelOutcome.err "boom")).2 = false ∧
    (scoreAnswer "Q" "hello" (ModelOutcome.err "boom")).1.score = 1 :=
  ⟨((C10_scoreAnswer_total_clamped "Q" "[Transcription failed]"
      (ModelOutcome.err "boom")).2.1 (by decide)).1,
   ((C10_scoreAnswer_total_clamped "Q" "[Transcription failed]"
      (ModelOutcome.err "boom")).2.1 (by decide)).2,
   ((C10_scoreAnswer_total_clamped "Q" "hello" (ModelOutcome.err "boom")).2.2.1
      "boom" rfl (by decide)).1⟩

end Wavvy
